import Mathlib

set_option maxRecDepth 4000

/-!
Verification of the grouped, fuzzy-filterable navigable list engine of
superfile: the sidebar directory filter (`getDirectories`,
`getPinnedDirectories`, `fuzzySearch`, `getFilteredDirectories`) and the two
zoxide history picker implementations found in the plugin sources.
Functions are shallowly embedded from the Go source; external collaborators
(the fzf scorer, the zoxide executable, the JSON decoder, `filepath.Base`)
enter as explicit parameters or as small faithful models.
-/

/-- A sidebar entry: `directory{location, name}` from the Go source. -/
structure directory where
  location : String
  name : String
deriving Repr, DecidableEq

/-- The sentinel inserted before the pinned group:
`directory{location: "Pinned+-*/=?"}` (its `name` is the zero value). -/
def pinnedDivider : directory := { location := "Pinned+-*/=?", name := "" }

/-- The sentinel inserted before the disks group. -/
def diskDivider : directory := { location := "Disks+-*/=?", name := "" }

/-- Whether an entry is one of the two group-boundary sentinels. -/
def isDivider (d : directory) : Bool :=
  d.location = "Pinned+-*/=?" || d.location = "Disks+-*/=?"

/-- `getDirectories`: well-known directories, the pinned sentinel, pinned
directories, the disks sentinel, then external media.  The three
collaborator outputs are parameters. -/
def getDirectories (wellKnown pinned media : List directory) : List directory :=
  wellKnown ++ pinnedDivider :: (pinned ++ diskDivider :: media)

/-- Tag for the group the partition loop of `getFilteredDirectories` is
currently appending to (`currentGroup` in the source). -/
inductive GroupTag where
  | pinnedG
  | disksG
deriving Repr, DecidableEq

/-- The partition loop of `getFilteredDirectories`: a sentinel switches the
current group; any other entry joins the current group, or the leading
group while no sentinel has been seen. -/
def partitionDirs : List directory → Option GroupTag → List directory × List directory × List directory
  | [], _ => ([], [], [])
  | d :: rest, cur =>
    if d.location = "Pinned+-*/=?" then partitionDirs rest (some .pinnedG)
    else if d.location = "Disks+-*/=?" then partitionDirs rest (some .disksG)
    else
      let r := partitionDirs rest cur
      match cur with
      | none => (d :: r.1, r.2.1, r.2.2)
      | some .pinnedG => (r.1, d :: r.2.1, r.2.2)
      | some .disksG => (r.1, r.2.1, d :: r.2.2)

/-- Association-list model of the Go `map[string]directory` built in
`fuzzySearch`; assignment overwrites an existing key, as a Go map does. -/
def mapInsert : List (String × directory) → String → directory → List (String × directory)
  | [], k, v => [(k, v)]
  | (k0, v0) :: t, k, v => if k0 = k then (k, v) :: t else (k0, v0) :: mapInsert t k v

/-- Lookup in the association-list model of the Go map. -/
def mapLookup : List (String × directory) → String → Option directory
  | [], _ => none
  | (k0, v0) :: t, k => if k0 = k then some v0 else mapLookup t k

/-- The `dirMap` loop of `fuzzySearch`: insert every directory keyed by its
display name, in input order. -/
def buildDirMap (dirs : List directory) : List (String × directory) :=
  dirs.foldl (fun m d => mapInsert m d.name d) []

/-- The last directory in the list bearing the given name: the value the Go
map resolves a match key to after all insertions. -/
def findLastName : List directory → String → Option directory
  | [], _ => none
  | d :: t, k =>
    match findLastName t k with
    | some r => some r
    | none => if d.name = k then some d else none

/-- `fuzzySearch`: build the name haystack and the name-keyed map, run the
scorer, and resolve each match key through the map.  The fzf call is the
opaque `scorer` parameter mapping (query, haystack) to match keys. -/
def fuzzySearch (scorer : String → List String → List String) (query : String)
    (dirs : List directory) : List directory :=
  if dirs.isEmpty then []
  else
    let dirMap := buildDirMap dirs
    let hits := scorer query (dirs.map directory.name)
    hits.filterMap (fun k => mapLookup dirMap k)

/-- The number of groups `getFilteredDirectories` is hard-coded to partition
into (`noneDirs`, `pinnedDirs`, `diskDirs`). -/
def numConfiguredGroups : Nat := 3

/-- `getFilteredDirectories`: partition the dataset into the three configured
groups, run the fuzzy search on each group independently, and recombine the
results around the two sentinels. -/
def getFilteredDirectories (scorer : String → List String → List String)
    (query : String) (allDirs : List directory) : List directory :=
  let g := partitionDirs allDirs none
  fuzzySearch scorer query g.1
    ++ pinnedDivider :: (fuzzySearch scorer query g.2.1
      ++ diskDivider :: fuzzySearch scorer query g.2.2)

/-- The number of group-boundary sentinels in a displayed sequence. -/
def countSentinels (ds : List directory) : Nat := (ds.filter isDivider).length

/-- A minimal JSON value model for the pinned-directories store; array
elements are one level of nesting, which is all the two persisted shapes
use. -/
inductive PJson where
  | jnull
  | jstr (s : String)
  | jobj (location name : String)
  | jarr (elems : List PJson)
  | jother
deriving Repr

/-- Option-valued `mapM` over a list, mirroring the element-by-element JSON
array decoding. -/
def optMapM (f : α → Option β) : List α → Option (List β)
  | [] => some []
  | a :: t =>
    match f a with
    | none => none
    | some b =>
      match optMapM f t with
      | none => none
      | some bs => some (b :: bs)

/-- `json.Unmarshal` into `[]string`: succeeds on `null` and on arrays whose
elements are strings (a `null` element is left as the zero string). -/
def decodeStringList : PJson → Option (List String)
  | .jnull => some []
  | .jarr es =>
    optMapM (fun e =>
      match e with
      | .jstr s => some s
      | .jnull => some ""
      | _ => none) es
  | _ => none

/-- `json.Unmarshal` into `[]struct{Location, Name string}`: succeeds on
`null` and on arrays of objects (a `null` element is the zero struct). -/
def decodeRecList : PJson → Option (List (String × String))
  | .jnull => some []
  | .jarr es =>
    optMapM (fun e =>
      match e with
      | .jobj l n => some (l, n)
      | .jnull => some ("", "")
      | _ => none) es
  | _ => none

/-- `getPinnedDirectories`: `none` models a file read error; `base` models
`filepath.Base`.  The flat path-list shape is tried first, then the
`{location, name}` record shape, and anything else is logged and degrades
to the empty list. -/
def getPinnedDirectories (base : String → String) : Option PJson → List directory
  | none => []
  | some j =>
    match decodeStringList j with
    | some paths => paths.map (fun p => { location := p, name := base p })
    | none =>
      match decodeRecList j with
      | some recs => recs.map (fun r => { location := r.1, name := r.2 })
      | none => []

/-- Rune list of a Go `strings.ToLower` result. -/
def lowerChars (s : String) : List Char := s.data.map Char.toLower

/-- Prefix test on rune lists. -/
def isPrefixChars : List Char → List Char → Bool
  | [], _ => true
  | _ :: _, [] => false
  | a :: as, b :: bs => a = b && isPrefixChars as bs

/-- `strings.Contains(hay, needle)` on rune lists. -/
def containsChars (needle : List Char) : List Char → Bool
  | [] => needle.isEmpty
  | c :: t => isPrefixChars needle (c :: t) || containsChars needle t

/-- Whitespace as trimmed by `strings.TrimSpace` (ASCII subset). -/
def isSpaceChar (c : Char) : Bool := c = ' ' || c = '\t' || c = '\n' || c = '\r'

/-- `strings.TrimSpace` model on rune lists. -/
def trimChars (cs : List Char) : List Char :=
  ((cs.dropWhile isSpaceChar).reverse.dropWhile isSpaceChar).reverse

/-- `strings.Split(s, "\n")` model: splitting the empty text yields one empty
piece, exactly as in Go. -/
def splitNl : List Char → List (List Char)
  | [] => [[]]
  | c :: t =>
    match splitNl t with
    | h :: r => if c = '\n' then [] :: h :: r else (c :: h) :: r
    | [] => [[c]]

/-- `strings.Split(strings.TrimSpace(s), "\n")`, the line splitting both
zoxide implementations apply to the command output. -/
def splitLines (s : String) : List String :=
  (splitNl (trimChars s.data)).map (fun cs => String.mk cs)

/-- State of the first (plugin-module) zoxide modal, `ZoxideModal`; the text
input is modelled by its string value `query`. -/
structure ModalA where
  width : Int
  height : Int
  cursor : Int
  renderIndex : Int
  entries : List String
  allEntries : List String
  query : String
  searchMode : Bool
deriving Repr, DecidableEq

/-- `len(z.Modal.Entries)` as a Go `int`. -/
def lenA (s : ModalA) : Int := (s.entries.length : Int)

/-- The `"up", "k"` branch of the first `handleKeypress`. -/
def moveUpA (s : ModalA) : ModalA :=
  if s.cursor > 0 then
    let c := s.cursor - 1
    { s with cursor := c, renderIndex := if c < s.renderIndex then c else s.renderIndex }
  else
    { s with cursor := lenA s - 1, renderIndex := max 0 (lenA s - s.height + 4) }

/-- The `"down", "j"` branch of the first `handleKeypress`. -/
def moveDownA (s : ModalA) : ModalA :=
  if s.cursor < lenA s - 1 then
    let c := s.cursor + 1
    let r := if s.renderIndex + s.height - 4 ≤ c then s.renderIndex + 1 else s.renderIndex
    { s with cursor := c, renderIndex := r }
  else
    { s with cursor := 0, renderIndex := 0 }

/-- The first implementation's `applySearch`: the fzf call is the opaque `f`,
mapping (lowered query, AllEntries) to the match keys. -/
def applySearchA (f : String → List String → List String) (s : ModalA) : ModalA :=
  let searchTerm := String.mk (lowerChars s.query)
  if searchTerm = "" then
    { s with entries := s.allEntries, cursor := 0, renderIndex := 0 }
  else
    let hits := f searchTerm s.allEntries
    if hits.isEmpty then
      { s with cursor := 0, renderIndex := 0 }
    else
      { s with entries := hits, cursor := 0, renderIndex := 0 }

/-- Go `minInt`. -/
def minIntZ (a b : Int) : Int := if a < b then a else b

/-- Go `maxInt`. -/
def maxIntZ (a b : Int) : Int := if a > b then a else b

/-- The first implementation's `UpdateModalSize`. -/
def updateModalSizeA (w h : Int) (s : ModalA) : ModalA :=
  { s with
    width := minIntZ (maxIntZ (w * 2 / 3) 40) 100,
    height := minIntZ (maxIntZ (h * 2 / 3) 10) 30 }

/-- The `"/"` branch of the first `handleKeypress`. -/
def beginSearchA (s : ModalA) : ModalA := { s with searchMode := true }

/-- One key typed into the search bar while in search mode. -/
def typeCharA (c : Char) (s : ModalA) : ModalA := { s with query := s.query.push c }

/-- A sequence of typed characters. -/
def typeAllA (cs : List Char) (s : ModalA) : ModalA := cs.foldl (fun s c => typeCharA c s) s

/-- The `"esc"` branch of the first `handleKeypress` while in search mode. -/
def cancelSearchA (s : ModalA) : ModalA :=
  { s with query := "", entries := s.allEntries, searchMode := false }

/-- The list operations named by the spec that the first implementation
offers on the displayed list (Resize is `updateModalSizeA`, kept apart). -/
inductive OpA where
  | up
  | down
  | commit (q : String)
deriving Repr, DecidableEq

/-- Dispatch one operation; `commit q` is typing `q` and pressing enter in
search mode. -/
def stepA (f : String → List String → List String) (s : ModalA) : OpA → ModalA
  | .up => moveUpA s
  | .down => moveDownA s
  | .commit q => applySearchA f { s with query := q, searchMode := false }

/-- Run a sequence of operations. -/
def runA (f : String → List String → List String) (s : ModalA) (ops : List OpA) : ModalA :=
  ops.foldl (stepA f) s

/-- `getZoxideHistory`: `none` models a command error; `some out` the captured
stdout.  Zero-length output returns an empty entry list and no error. -/
def getZoxideHistoryA (raw : Option String) : Except Unit (List String) :=
  match raw with
  | none => Except.error ()
  | some out => if out = "" then Except.ok [] else Except.ok (splitLines out)

/-- The first plugin: the open flag plus its modal. -/
structure PluginA where
  isOpen : Bool
  modal : ModalA
deriving Repr, DecidableEq

/-- The first implementation's `Open` together with the completion of the
command it returns: reset the modal, fetch the history, and close again on
a command error or empty history. -/
def openA (raw : Option String) (p : PluginA) : PluginA :=
  if p.isOpen then p
  else
    let m := { p.modal with cursor := 0, renderIndex := 0, query := "", searchMode := false }
    match getZoxideHistoryA raw with
    | Except.error _ => { isOpen := false, modal := m }
    | Except.ok es =>
      if es.isEmpty then { isOpen := false, modal := m }
      else { isOpen := true, modal := { m with entries := es, allEntries := es } }

/-- State of the second (feature-specific) zoxide modal, `zoxideModal`.  The
Go field `open` is a Lean keyword and is embedded as `openFlag`; the text
input `search` is modelled by its value `query`. -/
structure ModalB where
  openFlag : Bool
  width : Int
  height : Int
  cursor : Int
  render : Int
  entries : List String
  allItems : List String
  basePath : String
  query : String
  searching : Bool
deriving Repr, DecidableEq

/-- `len(z.modal.entries)` as a Go `int`. -/
def lenB (s : ModalB) : Int := (s.entries.length : Int)

/-- The `"up", "k"` branch of `HandleKeypress`. -/
def moveUpB (s : ModalB) : ModalB :=
  if s.cursor > 0 then
    let c := s.cursor - 1
    { s with cursor := c, render := if c < s.render then c else s.render }
  else
    let r := lenB s - s.height
    { s with cursor := lenB s - 1, render := if r < 0 then 0 else r }

/-- The `"down", "j"` branch of `HandleKeypress`. -/
def moveDownB (s : ModalB) : ModalB :=
  if s.cursor < lenB s - 1 then
    let c := s.cursor + 1
    { s with cursor := c, render := if s.render + s.height ≤ c then s.render + 1 else s.render }
  else
    { s with cursor := 0, render := 0 }

/-- The second implementation's `applySearch`: an empty lowered term restores
`allItems` and returns at once; otherwise a case-insensitive substring
filter replaces the entries and resets cursor and render. -/
def applySearchB (s : ModalB) : ModalB :=
  let searchTerm := lowerChars s.query
  if searchTerm.isEmpty then
    { s with entries := s.allItems }
  else
    let filtered := s.allItems.filter (fun e => containsChars searchTerm (lowerChars e))
    { s with entries := filtered, cursor := 0, render := 0 }

/-- The `"esc"` branch of `HandleKeypress` while searching. -/
def cancelSearchB (s : ModalB) : ModalB :=
  { s with query := "", entries := s.allItems, searching := false }

/-- The `"/"` branch of `HandleKeypress`. -/
def beginSearchB (s : ModalB) : ModalB := { s with searching := true }

/-- One key typed into the search input while searching. -/
def typeCharB (c : Char) (s : ModalB) : ModalB := { s with query := s.query.push c }

/-- A sequence of typed characters. -/
def typeAllB (cs : List Char) (s : ModalB) : ModalB := cs.foldl (fun s c => typeCharB c s) s

/-- `Close` / the `"q", "esc"` branch of `HandleKeypress`. -/
def closeB (s : ModalB) : ModalB := { s with openFlag := false }

/-- The second implementation's `UpdateModalSize`. -/
def updateModalSizeB (w h : Int) (s : ModalB) : ModalB :=
  let w1 := w * 2 / 3
  let w2 := if w1 > 100 then 100 else if w1 < 40 then 40 else w1
  let h1 := h * 2 / 3
  let h2 := if h1 > 30 then 30 else if h1 < 10 then 10 else h1
  { s with width := w2, height := h2 }

/-- The second plugin: the per-directory empty-history cache plus its modal. -/
structure PluginB where
  emptyFlag : List (String × Bool)
  modal : ModalB
deriving Repr, DecidableEq

/-- Lookup in the `emptyFlag` cache (a Go `map[string]bool`). -/
def lookupFlag : List (String × Bool) → String → Option Bool
  | [], _ => none
  | (k, v) :: t, cwd => if k = cwd then some v else lookupFlag t cwd

/-- `IsEmptyHistory` with its cache; `raw` is the zoxide invocation's outcome
(`none` a command error), consulted only on a cache miss. -/
def isEmptyHistoryB (raw : Option String) (cwd : String) (z : PluginB) : Bool × PluginB :=
  match lookupFlag z.emptyFlag cwd with
  | some v => (v, z)
  | none =>
    match raw with
    | none => (true, { z with emptyFlag := (cwd, true) :: z.emptyFlag })
    | some out =>
      if out = "" then (true, { z with emptyFlag := (cwd, true) :: z.emptyFlag })
      else (false, { z with emptyFlag := (cwd, false) :: z.emptyFlag })

/-- `Show`: bail out when `IsEmptyHistory` says so; otherwise run zoxide again
(outcome `raw2`), bail out on a command error, and otherwise open the modal
on the split output. -/
def showB (raw1 raw2 : Option String) (cwd : String) (z : PluginB) : PluginB :=
  let r := isEmptyHistoryB raw1 cwd z
  if r.1 then r.2
  else
    match raw2 with
    | none => r.2
    | some out =>
      let es := splitLines out
      let m1 := { r.2.modal with basePath := cwd, entries := es, allItems := es }
      let m2 := { m1 with cursor := 0, render := 0, openFlag := true }
      { r.2 with modal := { m2 with query := "", searching := false } }

/-! ### Lemmas about the fuzzySearch name map -/

theorem mapLookup_mapInsert (m : List (String × directory)) (k : String) (v : directory)
    (j : String) :
    mapLookup (mapInsert m k v) j = if k = j then some v else mapLookup m j := by
  induction m with
  | nil => simp [mapInsert, mapLookup]
  | cons p t ih =>
    obtain ⟨k0, v0⟩ := p
    by_cases h0 : k0 = k
    · subst h0
      simp only [mapInsert, if_pos rfl, mapLookup]
      by_cases hj : k0 = j <;> simp [hj]
    · simp only [mapInsert, if_neg h0, mapLookup, ih]
      by_cases hj : k0 = j
      · subst hj
        have hk : ¬k = k0 := fun h => h0 h.symm
        simp [hk]
      · simp [hj]

theorem mapLookup_foldInsert (ds : List directory) (m : List (String × directory)) (k : String) :
    mapLookup (ds.foldl (fun m d => mapInsert m d.name d) m) k =
      match findLastName ds k with
      | some d => some d
      | none => mapLookup m k := by
  induction ds generalizing m with
  | nil => simp [findLastName]
  | cons d t ih =>
    simp only [List.foldl_cons, ih, findLastName, mapLookup_mapInsert]
    cases h : findLastName t k
    · by_cases hd : d.name = k <;> simp [hd]
    · simp

theorem mapLookup_buildDirMap (ds : List directory) (k : String) :
    mapLookup (buildDirMap ds) k = findLastName ds k := by
  have h := mapLookup_foldInsert ds [] k
  unfold buildDirMap
  cases hf : findLastName ds k <;> simp [hf] at h <;> simp [h, hf, mapLookup]

theorem findLastName_spec (ds : List directory) (k : String) (d : directory)
    (h : findLastName ds k = some d) : d.name = k ∧ d ∈ ds := by
  induction ds with
  | nil => simp [findLastName] at h
  | cons a t ih =>
    simp only [findLastName] at h
    cases hf : findLastName t k with
    | some r =>
      rw [hf] at h
      obtain ⟨h1, h2⟩ := ih (hf.trans (by injection h with h; rw [h]))
      exact ⟨h1, List.mem_cons_of_mem _ h2⟩
    | none =>
      rw [hf] at h
      by_cases ha : a.name = k
      · rw [if_pos ha] at h
        injection h with h
        subst h
        exact ⟨ha, List.mem_cons_self _ _⟩
      · rw [if_neg ha] at h
        exact absurd h (by simp)

/-- Every result of `fuzzySearch` is the last directory of the input bearing
its name (shared helper behind the relevant claims). -/
theorem mem_fuzzySearch (f : String → List String → List String) (q : String)
    (dirs : List directory) (d : directory) (hd : d ∈ fuzzySearch f q dirs) :
    findLastName dirs d.name = some d := by
  unfold fuzzySearch at hd
  by_cases he : dirs.isEmpty
  · rw [if_pos he] at hd
    simp at hd
  · rw [if_neg he] at hd
    obtain ⟨k, _, hk⟩ := List.mem_filterMap.mp hd
    rw [mapLookup_buildDirMap] at hk
    obtain ⟨hname, _⟩ := findLastName_spec _ _ _ hk
    rw [hname]
    exact hk

/-- Results of `fuzzySearch` are drawn from the input list. -/
theorem fuzzySearch_subset (f : String → List String → List String) (q : String)
    (dirs : List directory) (d : directory) (hd : d ∈ fuzzySearch f q dirs) : d ∈ dirs :=
  (findLastName_spec _ _ _ (mem_fuzzySearch f q dirs d hd)).2

/-- Claim C10: `fuzzySearch` resolves each scorer match back to a directory by
display name, not by a unique key: every returned directory is the last
directory in the input list bearing the matched name, so when two input
directories share a display name the result may substitute one for the
other and can never contain both. -/
theorem fuzzySearch_resolves_by_last_name (f : String → List String → List String)
    (q : String) (dirs : List directory) :
    (∀ d ∈ fuzzySearch f q dirs, findLastName dirs d.name = some d) ∧
    (∀ d1 ∈ fuzzySearch f q dirs, ∀ d2 ∈ fuzzySearch f q dirs, d1.name = d2.name → d1 = d2) := by
  refine ⟨fun d hd => mem_fuzzySearch f q dirs d hd, fun d1 h1 d2 h2 hn => ?_⟩
  have e1 := mem_fuzzySearch f q dirs d1 h1
  have e2 := mem_fuzzySearch f q dirs d2 h2
  rw [hn, e2] at e1
  injection e1 with h
  exact h.symm

/-- Witness for C10 at a concrete duplicate-name dataset: the match key `"x"`
resolves to the later of the two directories named `"x"`. -/
theorem fuzzySearch_resolves_witness :
    findLastName [⟨"/a", "x"⟩, ⟨"/b", "x"⟩] (directory.name ⟨"/b", "x"⟩) = some ⟨"/b", "x"⟩ :=
  (fuzzySearch_resolves_by_last_name (fun _ _ => ["x"]) "q" [⟨"/a", "x"⟩, ⟨"/b", "x"⟩]).1
    ⟨"/b", "x"⟩ (by decide)

/-! ### Boundary preservation in the sidebar filter -/

theorem partitionDirs_no_divider (ds : List directory) (cur : Option GroupTag) :
    (∀ d ∈ (partitionDirs ds cur).1, isDivider d = false) ∧
    (∀ d ∈ (partitionDirs ds cur).2.1, isDivider d = false) ∧
    (∀ d ∈ (partitionDirs ds cur).2.2, isDivider d = false) := by
  induction ds generalizing cur with
  | nil => simp [partitionDirs]
  | cons a t ih =>
    by_cases hp : a.location = "Pinned+-*/=?"
    · simpa [partitionDirs, hp] using ih (some .pinnedG)
    · by_cases hd : a.location = "Disks+-*/=?"
      · simpa [partitionDirs, hp, hd] using ih (some .disksG)
      · have ha : isDivider a = false := by simp [isDivider, hp, hd]
        obtain ⟨i1, i2, i3⟩ := ih cur
        cases cur with
        | none =>
          have e : partitionDirs (a :: t) none
              = (a :: (partitionDirs t none).1, (partitionDirs t none).2.1,
                 (partitionDirs t none).2.2) := by
            simp [partitionDirs, hp, hd]
          rw [e]
          refine ⟨?_, i2, i3⟩
          intro d hdm
          rcases List.mem_cons.mp hdm with rfl | hdm
          · exact ha
          · exact i1 d hdm
        | some g =>
          cases g with
          | pinnedG =>
            have e : partitionDirs (a :: t) (some .pinnedG)
                = ((partitionDirs t (some .pinnedG)).1,
                   a :: (partitionDirs t (some .pinnedG)).2.1,
                   (partitionDirs t (some .pinnedG)).2.2) := by
              simp [partitionDirs, hp, hd]
            rw [e]
            refine ⟨i1, ?_, i3⟩
            intro d hdm
            rcases List.mem_cons.mp hdm with rfl | hdm
            · exact ha
            · exact i2 d hdm
          | disksG =>
            have e : partitionDirs (a :: t) (some .disksG)
                = ((partitionDirs t (some .disksG)).1,
                   (partitionDirs t (some .disksG)).2.1,
                   a :: (partitionDirs t (some .disksG)).2.2) := by
              simp [partitionDirs, hp, hd]
            rw [e]
            refine ⟨i1, i2, ?_⟩
            intro d hdm
            rcases List.mem_cons.mp hdm with rfl | hdm
            · exact ha
            · exact i3 d hdm

/-- Counterexample for claim C1: on a dataset with the three configured
groups (one entry each), the filtered output contains two group-boundary
sentinels, not `numConfiguredGroups` of them — the leading group is never
preceded by a sentinel. -/
theorem getFilteredDirectories_boundary_cex :
    countSentinels (getFilteredDirectories (fun _ h => h) ""
      (getDirectories [⟨"/home/u", "Home"⟩] [⟨"/pin", "pin"⟩] [⟨"/mnt/usb", "usb"⟩])) = 2 ∧
    2 ≠ numConfiguredGroups := by decide

/-- Claim C1 (amended): for every dataset, query and scorer, the output of
`getFilteredDirectories` contains exactly `numConfiguredGroups - 1 = 2`
group-boundary sentinels, in original group order (pinned before disks),
each emitted even when its group's filtered result is empty. -/
theorem getFilteredDirectories_boundaries (f : String → List String → List String)
    (q : String) (ds : List directory) :
    (getFilteredDirectories f q ds).filter isDivider = [pinnedDivider, diskDivider] ∧
    countSentinels (getFilteredDirectories f q ds) = numConfiguredGroups - 1 := by
  obtain ⟨p1, p2, p3⟩ := partitionDirs_no_divider ds none
  have h1 : (fuzzySearch f q (partitionDirs ds none).1).filter isDivider = [] := by
    rw [List.filter_eq_nil_iff]
    intro d hd
    simp [p1 d (fuzzySearch_subset f q _ d hd)]
  have h2 : (fuzzySearch f q (partitionDirs ds none).2.1).filter isDivider = [] := by
    rw [List.filter_eq_nil_iff]
    intro d hd
    simp [p2 d (fuzzySearch_subset f q _ d hd)]
  have h3 : (fuzzySearch f q (partitionDirs ds none).2.2).filter isDivider = [] := by
    rw [List.filter_eq_nil_iff]
    intro d hd
    simp [p3 d (fuzzySearch_subset f q _ d hd)]
  have hfil : (getFilteredDirectories f q ds).filter isDivider
      = [pinnedDivider, diskDivider] := by
    unfold getFilteredDirectories
    rw [List.filter_append, h1, List.filter_cons, List.filter_append, h2, List.filter_cons, h3]
    simp [isDivider, pinnedDivider, diskDivider]
  exact ⟨hfil, by simp [countSentinels, hfil, numConfiguredGroups]⟩

/-! ### Cursor visibility in the first modal implementation -/

/-- The cursor-visibility invariant of the first implementation, whose
rendered window spans `height - 4` rows starting at `renderIndex`
(its scroll arithmetic uses `height - 4` throughout): a non-empty
displayed list, a non-empty original dataset, a sane height, and the
cursor inside the rendered window. -/
def InvA (s : ModalA) : Prop :=
  0 < s.entries.length ∧ 0 < s.allEntries.length ∧ 5 ≤ s.height ∧
  s.renderIndex ≤ s.cursor ∧ s.cursor ≤ s.renderIndex + (s.height - 4) - 1

instance (s : ModalA) : Decidable (InvA s) := by
  unfold InvA
  infer_instance

theorem invA_moveUp (s : ModalA) (h : InvA s) : InvA (moveUpA s) := by
  obtain ⟨h1, h2, h3, h4, h5⟩ := h
  unfold InvA moveUpA lenA at *
  split_ifs <;> refine ⟨by simpa using h1, by simpa using h2, by simpa using h3, ?_, ?_⟩ <;>
    simp only [ModalA.cursor, ModalA.renderIndex, ModalA.height] <;> omega

theorem invA_moveDown (s : ModalA) (h : InvA s) : InvA (moveDownA s) := by
  obtain ⟨h1, h2, h3, h4, h5⟩ := h
  unfold InvA moveDownA lenA at *
  split_ifs <;> refine ⟨by simpa using h1, by simpa using h2, by simpa using h3, ?_, ?_⟩ <;>
    simp only [ModalA.cursor, ModalA.renderIndex, ModalA.height] <;> omega

theorem invA_applySearch (f : String → List String → List String) (s : ModalA)
    (h : InvA s) : InvA (applySearchA f s) := by
  obtain ⟨h1, h2, h3, h4, h5⟩ := h
  unfold InvA applySearchA
  dsimp only
  split_ifs with he hm
  · refine ⟨by simpa using h2, by simpa using h2, by simpa using h3, by simp, ?_⟩
    simp only [ModalA.cursor, ModalA.renderIndex, ModalA.height]
    omega
  · refine ⟨by simpa using h1, by simpa using h2, by simpa using h3, by simp, ?_⟩
    simp only [ModalA.cursor, ModalA.renderIndex, ModalA.height]
    omega
  · have hne : f (String.mk (lowerChars s.query)) s.allEntries ≠ [] := by
      simpa [List.isEmpty_iff] using hm
    refine ⟨?_, by simpa using h2, by simpa using h3, by simp, ?_⟩
    · simpa using List.length_pos.mpr hne
    · simp only [ModalA.cursor, ModalA.renderIndex, ModalA.height]
      omega

theorem invA_step (f : String → List String → List String) (s : ModalA) (op : OpA)
    (h : InvA s) : InvA (stepA f s op) := by
  cases op with
  | up => exact invA_moveUp s h
  | down => exact invA_moveDown s h
  | commit q =>
    refine invA_applySearch f _ ?_
    obtain ⟨h1, h2, h3, h4, h5⟩ := h
    exact ⟨h1, h2, h3, h4, h5⟩

/-- Counterexample for claim C2: a reachable state (20-line modal opened on
30 entries, grown to height 30 by a resize, 25 `MoveDown`s, then a resize
shrinking the modal to height 10) where the cursor sits far below the
rendered window — `Resize` re-clamps neither cursor nor viewport offset.
The inequality fails with `viewportHeight` read as the full modal height,
hence also for the smaller rendered window of `height - 4` rows. -/
theorem cursorVisibility_resize_cex :
    (updateModalSizeA 60 15 (runA (fun _ _ => [])
        (updateModalSizeA 45 45
          ⟨60, 20, 0, 0, List.replicate 30 "e", List.replicate 30 "e", "", false⟩)
        (List.replicate 25 OpA.down))).cursor = 25 ∧
    (updateModalSizeA 60 15 (runA (fun _ _ => [])
        (updateModalSizeA 45 45
          ⟨60, 20, 0, 0, List.replicate 30 "e", List.replicate 30 "e", "", false⟩)
        (List.replicate 25 OpA.down))).renderIndex = 0 ∧
    (updateModalSizeA 60 15 (runA (fun _ _ => [])
        (updateModalSizeA 45 45
          ⟨60, 20, 0, 0, List.replicate 30 "e", List.replicate 30 "e", "", false⟩)
        (List.replicate 25 OpA.down))).height = 10 ∧
    ¬((25 : Int) ≤ 0 + 10 - 1) := by decide

/-- Claim C2 (amended): in the first implementation, after any sequence of
`MoveUp`/`MoveDown`/`Replace` (search commits) from a state satisfying the
cursor-visibility invariant, the cursor still lies inside the rendered
window: `viewportOffset ≤ cursor ≤ viewportOffset + (height - 4) - 1`,
where `height - 4` is the implementation's rendered viewport height.
`Resize` is excluded: `UpdateModalSize` re-clamps nothing, and the
feature-specific variant scrolls against the full `height`, so the claim
as stated fails for both. -/
theorem cursorVisibility_moves (f : String → List String → List String)
    (s : ModalA) (ops : List OpA) (h : InvA s) :
    InvA (runA f s ops) ∧
    (runA f s ops).renderIndex ≤ (runA f s ops).cursor ∧
    (runA f s ops).cursor ≤ (runA f s ops).renderIndex + ((runA f s ops).height - 4) - 1 := by
  have hrun : InvA (runA f s ops) := by
    induction ops generalizing s with
    | nil => exact h
    | cons op t ih => exact ih (stepA f s op) (invA_step f s op h)
  exact ⟨hrun, hrun.2.2.2.1, hrun.2.2.2.2⟩

/-- Witness for the amended C2 at a concrete state and operation list. -/
theorem cursorVisibility_moves_witness :
    InvA (runA (fun _ _ => ["a"])
      ⟨60, 20, 0, 0, ["a", "b"], ["a", "b"], "", false⟩
      [OpA.down, OpA.up, OpA.commit "a"]) :=
  (cursorVisibility_moves (fun _ _ => ["a"])
    ⟨60, 20, 0, 0, ["a", "b"], ["a", "b"], "", false⟩
    [OpA.down, OpA.up, OpA.commit "a"] (by decide)).1

/-! ### Wraparound -/

/-- Claim C3: on a displayed list of length `N ≥ 1`, `MoveUp` at cursor 0
wraps to `cursor = N - 1` with `viewportOffset = max 0 (N - H)`, `MoveDown`
at `cursor = N - 1` wraps to cursor 0 and offset 0, and a single-element
list wraps to itself — in both implementations, where `H` is the
implementation's own viewport height parameter (`height - 4` in the first,
the full `height` in the second, matching their scroll arithmetic). -/
theorem wraparound_moves (sA : ModalA) (sB : ModalB) :
    (sA.cursor = 0 → 1 ≤ sA.entries.length →
      (moveUpA sA).cursor = lenA sA - 1 ∧
      (moveUpA sA).renderIndex = max 0 (lenA sA - (sA.height - 4))) ∧
    (1 ≤ sA.entries.length → sA.cursor = lenA sA - 1 →
      (moveDownA sA).cursor = 0 ∧ (moveDownA sA).renderIndex = 0) ∧
    (sA.entries.length = 1 → sA.cursor = 0 →
      (moveUpA sA).cursor = 0 ∧ (moveDownA sA).cursor = 0) ∧
    (sB.cursor = 0 → 1 ≤ sB.entries.length →
      (moveUpB sB).cursor = lenB sB - 1 ∧
      (moveUpB sB).render = max 0 (lenB sB - sB.height)) ∧
    (1 ≤ sB.entries.length → sB.cursor = lenB sB - 1 →
      (moveDownB sB).cursor = 0 ∧ (moveDownB sB).render = 0) ∧
    (sB.entries.length = 1 → sB.cursor = 0 →
      (moveUpB sB).cursor = 0 ∧ (moveDownB sB).cursor = 0) := by
  refine ⟨fun hc hn => ?_, fun hn hc => ?_, fun hn hc => ?_,
    fun hc hn => ?_, fun hn hc => ?_, fun hn hc => ?_⟩
  · unfold moveUpA
    rw [if_neg (by omega)]
    constructor
    · simp
    · simp only [ModalA.renderIndex]
      have he : lenA sA - sA.height + 4 = lenA sA - (sA.height - 4) := by ring
      rw [he]
  · unfold moveDownA
    rw [if_neg (by omega)]
    exact ⟨by simp, by simp⟩
  · constructor
    · unfold moveUpA
      rw [if_neg (by omega)]
      simp only [ModalA.cursor]
      unfold lenA
      omega
    · unfold moveDownA
      rw [if_neg (by unfold lenA; omega)]
  · unfold moveUpB
    rw [if_neg (by omega)]
    constructor
    · simp
    · simp only [ModalB.render]
      split <;> omega
  · unfold moveDownB
    rw [if_neg (by omega)]
    exact ⟨by simp, by simp⟩
  · constructor
    · unfold moveUpB
      rw [if_neg (by omega)]
      simp only [ModalB.cursor]
      unfold lenB
      omega
    · unfold moveDownB
      rw [if_neg (by unfold lenB; omega)]

/-- Witness for C3 at single-element lists, where every hypothesis holds at
once. -/
theorem wraparound_moves_witness :
    ((moveUpA ⟨60, 20, 0, 0, ["a"], ["a"], "", false⟩).cursor
        = lenA ⟨60, 20, 0, 0, ["a"], ["a"], "", false⟩ - 1) ∧
    ((moveDownA ⟨60, 20, 0, 0, ["a"], ["a"], "", false⟩).cursor = 0) ∧
    ((moveUpB ⟨true, 60, 20, 0, 0, ["b"], ["b"], "", "", false⟩).cursor = 0) ∧
    ((moveDownB ⟨true, 60, 20, 0, 0, ["b"], ["b"], "", "", false⟩).cursor = 0) := by
  have h := wraparound_moves ⟨60, 20, 0, 0, ["a"], ["a"], "", false⟩
    ⟨true, 60, 20, 0, 0, ["b"], ["b"], "", "", false⟩
  exact ⟨(h.1 rfl (by decide)).1, ((h.2.1) (by decide) (by decide)).1,
    (h.2.2.2.2.2 rfl rfl).1, (h.2.2.2.2.2 rfl rfl).2⟩

/-! ### Search cancel and the immutability of the original dataset -/

theorem typeAllA_fields (cs : List Char) (s : ModalA) :
    (typeAllA cs s).entries = s.entries ∧ (typeAllA cs s).allEntries = s.allEntries ∧
    (typeAllA cs s).searchMode = s.searchMode := by
  induction cs generalizing s with
  | nil => exact ⟨rfl, rfl, rfl⟩
  | cons c t ih => simpa [typeAllA, typeCharA] using ih { s with query := s.query.push c }

theorem typeAllB_fields (cs : List Char) (s : ModalB) :
    (typeAllB cs s).entries = s.entries ∧ (typeAllB cs s).allItems = s.allItems ∧
    (typeAllB cs s).searching = s.searching := by
  induction cs generalizing s with
  | nil => exact ⟨rfl, rfl, rfl⟩
  | cons c t ih => simpa [typeAllB, typeCharB] using ih { s with query := s.query.push c }

/-- Claim C4: in both implementations, entering search mode, typing any
sequence of characters, then cancelling, restores the displayed list to
the pre-search original dataset, clears the query and leaves search mode;
and a search commit never mutates the original dataset. -/
theorem cancel_restores_allEntries :
    (∀ (s : ModalA) (cs : List Char),
      (cancelSearchA (typeAllA cs (beginSearchA s))).entries = s.allEntries ∧
      (cancelSearchA (typeAllA cs (beginSearchA s))).allEntries = s.allEntries ∧
      (cancelSearchA (typeAllA cs (beginSearchA s))).query = "" ∧
      (cancelSearchA (typeAllA cs (beginSearchA s))).searchMode = false) ∧
    (∀ (s : ModalB) (cs : List Char),
      (cancelSearchB (typeAllB cs (beginSearchB s))).entries = s.allItems ∧
      (cancelSearchB (typeAllB cs (beginSearchB s))).allItems = s.allItems ∧
      (cancelSearchB (typeAllB cs (beginSearchB s))).query = "" ∧
      (cancelSearchB (typeAllB cs (beginSearchB s))).searching = false) ∧
    (∀ (f : String → List String → List String) (s : ModalA),
      (applySearchA f s).allEntries = s.allEntries) ∧
    (∀ s : ModalB, (applySearchB s).allItems = s.allItems) := by
  refine ⟨fun s cs => ?_, fun s cs => ?_, fun f s => ?_, fun s => ?_⟩
  · obtain ⟨e1, e2, e3⟩ := typeAllA_fields cs (beginSearchA s)
    unfold cancelSearchA
    refine ⟨by rw [e2]; rfl, by rw [e2]; rfl, rfl, rfl⟩
  · obtain ⟨e1, e2, e3⟩ := typeAllB_fields cs (beginSearchB s)
    unfold cancelSearchB
    refine ⟨by rw [e2]; rfl, by rw [e2]; rfl, rfl, rfl⟩
  · unfold applySearchA
    dsimp only
    split_ifs <;> rfl
  · unfold applySearchB
    dsimp only
    split_ifs <;> rfl

/-! ### Search commit semantics -/

/-- A second-implementation modal state with an empty query and the cursor on
the second entry, as left by `Show` followed by one `MoveDown`. -/
def wB5 : ModalB := ⟨true, 60, 20, 1, 0, ["a", "b"], ["a", "b"], "", "", true⟩

/-- The same state about to commit the non-empty query `"b"`. -/
def wB5q : ModalB := { wB5 with query := "b" }

/-- Counterexample for claim C5: in the feature-specific implementation,
committing a search with an empty query restores `allItems` but leaves the
cursor where it was (the early return skips the resets), so the commit
does not reset cursor and viewport offset to 0. -/
theorem commitSearch_empty_query_cex :
    (applySearchB wB5).cursor = 1 ∧ (applySearchB wB5).entries = wB5.allItems ∧
    ((1 : Int) ≠ 0) := by decide

/-- Claim C5 (amended): in the feature-specific implementation, committing a
non-empty query replaces the displayed list by the substring-filter result
(sticky, even when empty) and resets cursor and viewport offset to 0;
committing an empty query resets the displayed list to `allItems` but
leaves cursor and viewport offset untouched. -/
theorem commitSearch_b_semantics (s : ModalB) :
    ((lowerChars s.query).isEmpty = true →
      applySearchB s = { s with entries := s.allItems }) ∧
    ((lowerChars s.query).isEmpty = false →
      (applySearchB s).entries
          = s.allItems.filter (fun e => containsChars (lowerChars s.query) (lowerChars e)) ∧
      (applySearchB s).cursor = 0 ∧ (applySearchB s).render = 0) := by
  constructor
  · intro he
    unfold applySearchB
    dsimp only
    rw [if_pos he]
  · intro he
    unfold applySearchB
    dsimp only
    rw [if_neg (by simp [he])]
    exact ⟨rfl, rfl, rfl⟩

/-- Witness for the amended C5 at the two concrete commit states. -/
theorem commitSearch_b_semantics_witness :
    applySearchB wB5 = { wB5 with entries := wB5.allItems } ∧
    (applySearchB wB5q).cursor = 0 :=
  ⟨(commitSearch_b_semantics wB5).1 (by decide),
   ((commitSearch_b_semantics wB5q).2 (by decide)).2.1⟩

/-- A first-implementation modal state displaying a non-empty filtered list,
with a non-empty query pending. -/
def wA6 : ModalA := ⟨60, 20, 0, 0, ["keep"], ["a"], "zzz", false⟩

/-- Counterexample for claim C6: in the generalized implementation, a commit
whose scorer returns zero matches keeps the previous displayed contents
(here `["keep"]`, which is not empty), instead of leaving the list empty. -/
theorem commitSearch_no_match_cex :
    (applySearchA (fun _ _ => []) wA6).entries = ["keep"] ∧
    (["keep"] : List String) ≠ [] := by decide

/-- Claim C6 (amended): in the generalized implementation, committing a
non-empty query for which the scorer returns zero matches retains the
previous displayed list unchanged and only resets cursor and viewport
offset to 0; the displayed list does not become empty. -/
theorem commitSearch_no_match_a (f : String → List String → List String) (s : ModalA)
    (hq : String.mk (lowerChars s.query) ≠ "")
    (hm : f (String.mk (lowerChars s.query)) s.allEntries = []) :
    (applySearchA f s).entries = s.entries ∧
    (applySearchA f s).cursor = 0 ∧ (applySearchA f s).renderIndex = 0 := by
  unfold applySearchA
  dsimp only
  rw [if_neg hq, hm]
  exact ⟨rfl, rfl, rfl⟩

/-- Witness for the amended C6 at the concrete zero-match commit. -/
theorem commitSearch_no_match_a_witness :
    (applySearchA (fun _ _ => []) wA6).entries = wA6.entries ∧
    (applySearchA (fun _ _ => []) wA6).cursor = 0 ∧
    (applySearchA (fun _ _ => []) wA6).renderIndex = 0 :=
  commitSearch_no_match_a (fun _ _ => []) wA6 (by decide) rfl

/-! ### Pinned-directories deserialization -/

theorem decodeStringList_strs (ps : List String) :
    decodeStringList (PJson.jarr (ps.map PJson.jstr)) = some ps := by
  induction ps with
  | nil => rfl
  | cons p t ih =>
    have ihm := ih
    simp only [decodeStringList] at ihm
    simp only [decodeStringList, List.map_cons, optMapM, ihm]

theorem decodeRecList_objs (recs : List (String × String)) :
    decodeRecList (PJson.jarr (recs.map (fun r => PJson.jobj r.1 r.2))) = some recs := by
  induction recs with
  | nil => rfl
  | cons r t ih =>
    have ihm := ih
    simp only [decodeRecList] at ihm
    simp only [decodeRecList, List.map_cons, optMapM, ihm]

/-- Claim C7: `getPinnedDirectories` accepts both legacy persisted shapes —
a flat list of path strings (entries named by the path's base name), tried
first, or a list of `{location, name}` records — and returns the empty
list, never failing, on a read error or on data matching neither shape. -/
theorem getPinnedDirectories_shapes (base : String → String) :
    (∀ ps : List String,
      getPinnedDirectories base (some (PJson.jarr (ps.map PJson.jstr))) =
        ps.map (fun p => { location := p, name := base p })) ∧
    (∀ recs : List (String × String),
      getPinnedDirectories base (some (PJson.jarr (recs.map (fun r => PJson.jobj r.1 r.2)))) =
        recs.map (fun r => { location := r.1, name := r.2 })) ∧
    (∀ j : PJson, decodeStringList j = none → decodeRecList j = none →
      getPinnedDirectories base (some j) = []) ∧
    getPinnedDirectories base none = [] := by
  refine ⟨fun ps => ?_, fun recs => ?_, fun j h1 h2 => ?_, rfl⟩
  · unfold getPinnedDirectories
    dsimp only
    rw [decodeStringList_strs]
  · cases recs with
    | nil => rfl
    | cons r t =>
      have h1 : decodeStringList
          (PJson.jarr ((r :: t).map (fun r => PJson.jobj r.1 r.2))) = none := rfl
      unfold getPinnedDirectories
      dsimp only
      rw [h1, decodeRecList_objs]
  · unfold getPinnedDirectories
    dsimp only
    rw [h1, h2]

/-- Witness for C7: a malformed store decodes as neither shape and yields the
empty list, and a flat store yields base-named entries. -/
theorem getPinnedDirectories_shapes_witness :
    getPinnedDirectories (fun _ => "y") (some PJson.jother) = [] ∧
    getPinnedDirectories (fun _ => "y") (some (PJson.jarr [PJson.jstr "/x/y"]))
      = [{ location := "/x/y", name := "y" }] :=
  ⟨(getPinnedDirectories_shapes (fun _ => "y")).2.2.1 PJson.jother rfl rfl,
   ((getPinnedDirectories_shapes (fun _ => "y")).1 ["/x/y"]).trans (by decide)⟩

/-! ### Empty history at open time -/

/-- A freshly initialized second plugin: empty cache, closed modal. -/
def zB0 : PluginB := ⟨[], ⟨false, 60, 20, 0, 0, [], [], "", "", false⟩⟩

/-- First `Show`, while the history holds `/a`: opens and caches non-empty. -/
def zB1 : PluginB := showB (some "/a") (some "/a") "/d" zB0

/-- The modal is then closed. -/
def zB2 : PluginB := { zB1 with modal := closeB zB1.modal }

/-- Second `Show` after the history has emptied: the stale cache entry says
non-empty, so `Show` proceeds, and the empty command output is split into
one empty-string entry. -/
def zB3 : PluginB := showB none (some "") "/d" zB2

/-- Counterexample for claim C8: with a stale non-empty cache entry, `Show`
opens the modal even though the history tool returned empty output at open
time, displaying a single empty-string entry instead of staying closed. -/
theorem showB_stale_cache_cex :
    zB3.modal.openFlag = true ∧ zB3.modal.entries = [""] := by decide

/-- A closed first plugin with an empty modal. -/
def pA0 : PluginA := ⟨false, ⟨60, 20, 0, 0, [], [], "", false⟩⟩

/-- Claim C8 (amended): when the history tool fails or returns zero-byte
output at open time, `Open` (first implementation) ends with the modal
closed and the entries untouched; `Show` (second implementation) keeps the
modal state unchanged provided its per-directory cache does not hold a
stale non-empty verdict for the current directory. -/
theorem open_empty_history_closed :
    (∀ (p : PluginA) (raw : Option String), p.isOpen = false →
      (raw = none ∨ raw = some "") →
      (openA raw p).isOpen = false ∧ (openA raw p).modal.entries = p.modal.entries) ∧
    (∀ (z : PluginB) (raw1 raw2 : Option String) (cwd : String),
      lookupFlag z.emptyFlag cwd ≠ some false →
      (raw1 = none ∨ raw1 = some "") →
      (showB raw1 raw2 cwd z).modal = z.modal) := by
  constructor
  · intro p raw hp hr
    unfold openA
    rw [if_neg (by simp [hp])]
    rcases hr with rfl | rfl
    · exact ⟨rfl, rfl⟩
    · exact ⟨rfl, rfl⟩
  · intro z raw1 raw2 cwd hc hr
    unfold showB isEmptyHistoryB
    cases hl : lookupFlag z.emptyFlag cwd with
    | some v =>
      cases v with
      | false => exact absurd hl hc
      | true => simp [hl]
    | none =>
      rcases hr with rfl | rfl
      · simp [hl]
      · simp [hl]

/-- Witness for the amended C8: a failed command on a closed first plugin
and a cache-miss empty fetch on a fresh second plugin both leave the
modals closed. -/
theorem open_empty_history_closed_witness :
    ((openA none pA0).isOpen = false ∧ (openA none pA0).modal.entries = pA0.modal.entries) ∧
    (showB (some "") none "/d" zB0).modal = zB0.modal :=
  ⟨open_empty_history_closed.1 pA0 none rfl (Or.inl rfl),
   open_empty_history_closed.2 zB0 (some "") none "/d" (by decide) (Or.inr rfl)⟩

/-! ### Cursor bounds, including the empty list -/

/-- A second-implementation modal whose displayed list has been emptied by a
zero-match commit, with the cursor at the no-op sentinel 0. -/
def wB9 : ModalB := ⟨true, 60, 20, 0, 0, [], ["a"], "", "zz", false⟩

/-- Counterexample for claim C9: `MoveUp` on an empty displayed list sets the
cursor to `-1` (the wrap branch computes `len - 1` with no emptiness
guard), not 0. -/
theorem moveUp_empty_cex :
    (moveUpB wB9).cursor = -1 ∧ ((-1 : Int) ≠ 0) := by decide

/-- Claim C9 (amended): in both implementations, `MoveUp` and `MoveDown`
preserve `0 ≤ cursor < len(displayed)` whenever the displayed list is
non-empty; on an empty displayed list with the cursor at the no-op
sentinel 0, `MoveDown` leaves the cursor at 0, but `MoveUp` sets it to
`-1`. -/
theorem cursor_bounds_updown :
    (∀ s : ModalA, 0 ≤ s.cursor → s.cursor < lenA s →
      0 ≤ (moveUpA s).cursor ∧ (moveUpA s).cursor < lenA s ∧
      0 ≤ (moveDownA s).cursor ∧ (moveDownA s).cursor < lenA s) ∧
    (∀ s : ModalA, s.entries = [] → s.cursor = 0 →
      (moveDownA s).cursor = 0 ∧ (moveUpA s).cursor = -1) ∧
    (∀ s : ModalB, 0 ≤ s.cursor → s.cursor < lenB s →
      0 ≤ (moveUpB s).cursor ∧ (moveUpB s).cursor < lenB s ∧
      0 ≤ (moveDownB s).cursor ∧ (moveDownB s).cursor < lenB s) ∧
    (∀ s : ModalB, s.entries = [] → s.cursor = 0 →
      (moveDownB s).cursor = 0 ∧ (moveUpB s).cursor = -1) := by
  refine ⟨fun s h0 hl => ⟨?_, ?_, ?_, ?_⟩, fun s he hc => ⟨?_, ?_⟩,
    fun s h0 hl => ⟨?_, ?_, ?_, ?_⟩, fun s he hc => ⟨?_, ?_⟩⟩
  · unfold moveUpA lenA at *
    split_ifs <;> simp only [ModalA.cursor] <;> omega
  · unfold moveUpA lenA at *
    split_ifs <;> simp only [ModalA.cursor] <;> omega
  · unfold moveDownA lenA at *
    split_ifs <;> simp only [ModalA.cursor] <;> omega
  · unfold moveDownA lenA at *
    split_ifs <;> simp only [ModalA.cursor] <;> omega
  · unfold moveDownA lenA
    rw [he, hc]
    rw [if_neg (by simp)]
  · unfold moveUpA lenA
    rw [he, hc]
    rw [if_neg (by simp)]
    simp
  · unfold moveUpB lenB at *
    split_ifs <;> simp only [ModalB.cursor] <;> omega
  · unfold moveUpB lenB at *
    split_ifs <;> simp only [ModalB.cursor] <;> omega
  · unfold moveDownB lenB at *
    split_ifs <;> simp only [ModalB.cursor] <;> omega
  · unfold moveDownB lenB at *
    split_ifs <;> simp only [ModalB.cursor] <;> omega
  · unfold moveDownB lenB
    rw [he, hc]
    rw [if_neg (by simp)]
  · unfold moveUpB lenB
    rw [he, hc]
    rw [if_neg (by simp)]
    simp

/-- Witness for the amended C9: bounds at a one-element list, and the
`MoveDown` no-op on the concrete empty state. -/
theorem cursor_bounds_updown_witness :
    (0 ≤ (moveUpA ⟨60, 20, 0, 0, ["a"], ["a"], "", false⟩).cursor) ∧
    ((moveDownB wB9).cursor = 0) :=
  ⟨(cursor_bounds_updown.1 ⟨60, 20, 0, 0, ["a"], ["a"], "", false⟩
      (by decide) (by decide)).1,
   (cursor_bounds_updown.2.2.2 wB9 rfl rfl).1⟩
